import Mathlib

/-!
Shallow embedding of the speda-mark5 backend (Python/FastAPI personal-assistant
service) and proofs about its Confirmation Gate, resource services, function
dispatcher, streaming orchestrator and context window.

Conventions of the embedding:
* the SQL store of each resource service is an explicit `List` of rows;
  `select ... where id = x` is `List.find?`, ORM row update is a `List.map`
  that replaces the row with the matching id, `db.delete(row)` is
  `List.eraseP`, SQL `ORDER BY` is an insertion sort;
* `datetime` values are minutes since an arbitrary epoch (`Nat`);
* fallible external calls (Google APIs, SMTP, the LLM) are oracles passed in
  as explicit parameters; a Python exception raised by such a call is the
  `Except.error` case of the oracle result;
* irreversible side effects (network transmission of an email, remote
  deletion) are returned as explicit effect traces so that theorems can state
  that no transmission/deletion happened on a code path;
* `Action.payload` and human-readable message strings of `Action` are elided:
  no claim under study constrains them, only the action kind.
-/

namespace Speda

/-- `ActionType` enum from `app/schemas/__init__.py`. -/
inductive ActionType
  | task_created
  | task_updated
  | task_completed
  | task_deleted
  | event_created
  | event_updated
  | event_deleted
  | email_drafted
  | email_sent
  | confirmation_required
  | error
deriving DecidableEq, Repr

/-- The `Action` envelope (`{type, payload, message}`) returned by every
mutating resource-service operation; payload and message are elided. -/
structure Action where
  type : ActionType
deriving DecidableEq, Repr

/-! ## Task service (`app/services/task.py`, router `app/routers/tasks.py`) -/

/-- `TaskStatus` enum from `app/models/__init__.py`. -/
inductive TaskStatus
  | pending
  | completed
deriving DecidableEq, Repr

/-- A row of the `tasks` table (fields not used by any claim elided). -/
structure Task where
  id : Nat
  title : String
  status : TaskStatus
deriving DecidableEq, Repr

/-- `TaskService.get_task`: `select(Task).where(Task.id == task_id)`,
`scalar_one_or_none`. -/
def getTask (db : List Task) (task_id : Nat) : Option Task :=
  db.find? (fun t => t.id = task_id)

/-- Result of a task mutation that returns `(Optional[Task], Optional[Action])`
in the source, together with the updated store. -/
structure TaskOpResult where
  store : List Task
  task : Option Task
  action : Option Action
deriving DecidableEq, Repr

/-- Result of a deletion returning `(bool, Action)` in the source. -/
structure TaskDeleteResult where
  store : List Task
  success : Bool
  action : Action
deriving DecidableEq, Repr

/-- `TaskService.complete_task(task_id, confirmed=True)`. Note the source
default of the `confirmed` parameter is `True`. -/
def completeTask (db : List Task) (task_id : Nat) (confirmed : Bool) :
    TaskOpResult :=
  if !confirmed then
    ⟨db, none, some ⟨.confirmation_required⟩⟩
  else
    match getTask db task_id with
    | none => ⟨db, none, none⟩
    | some task =>
      let task2 : Task := { task with status := .completed }
      ⟨db.map (fun t => if t.id = task_id then task2 else t), some task2,
        some ⟨.task_completed⟩⟩

/-- `TaskService.delete_task(task_id, confirmed=False)`. -/
def deleteTask (db : List Task) (task_id : Nat) (confirmed : Bool) :
    TaskDeleteResult :=
  match getTask db task_id with
  | none => ⟨db, false, ⟨.error⟩⟩
  | some _ =>
    if !confirmed then
      ⟨db, false, ⟨.confirmation_required⟩⟩
    else
      ⟨db.eraseP (fun t => t.id = task_id), true, ⟨.task_deleted⟩⟩

/-- Router `POST /tasks/{id}/complete`: `confirmed: bool = Query(True)` —
an omitted query parameter defaults to `True`. -/
def completeTaskEndpoint (db : List Task) (task_id : Nat)
    (confirmed : Option Bool) : TaskOpResult :=
  completeTask db task_id (confirmed.getD true)

/-- Router `DELETE /tasks/{id}`: `confirmed: bool = Query(False)`. -/
def deleteTaskEndpoint (db : List Task) (task_id : Nat)
    (confirmed : Option Bool) : TaskDeleteResult :=
  deleteTask db task_id (confirmed.getD false)

/-! ## Calendar service (`app/services/calendar.py`) -/

/-- A row of the `calendar_events` table; times are minutes since epoch. -/
structure CalendarEvent where
  id : Nat
  title : String
  start_time : Nat
  end_time : Nat
deriving DecidableEq, Repr

/-- `CalendarService.get_event`. -/
def getEvent (db : List CalendarEvent) (event_id : Nat) : Option CalendarEvent :=
  db.find? (fun e => e.id = event_id)

/-- Result of `CalendarService.delete_event` (`(bool, Action)` plus store). -/
structure EventDeleteResult where
  store : List CalendarEvent
  success : Bool
  action : Action
deriving DecidableEq, Repr

/-- `CalendarService.delete_event(event_id, confirmed=False)`. -/
def deleteEvent (db : List CalendarEvent) (event_id : Nat) (confirmed : Bool) :
    EventDeleteResult :=
  match getEvent db event_id with
  | none => ⟨db, false, ⟨.error⟩⟩
  | some _ =>
    if !confirmed then
      ⟨db, false, ⟨.confirmation_required⟩⟩
    else
      ⟨db.eraseP (fun e => e.id = event_id), true, ⟨.event_deleted⟩⟩

/-- Router `DELETE /calendar/events/{id}`: `confirmed: bool = Query(False)`. -/
def deleteEventEndpoint (db : List CalendarEvent) (event_id : Nat)
    (confirmed : Option Bool) : EventDeleteResult :=
  deleteEvent db event_id (confirmed.getD false)

/-- The `where` clause of `CalendarService._check_conflicts`: the stored event
`e` conflicts with the candidate interval `[start_time, end_time)` iff
`e.start_time < end_time AND e.end_time > start_time`. -/
def conflictsWith (start_time end_time : Nat) (e : CalendarEvent) : Bool :=
  decide (e.start_time < end_time) && decide (e.end_time > start_time)

/-- `CalendarService._check_conflicts(start_time, end_time, exclude_id)`.
Note the Python guard `if exclude_id:` treats an id of `0` as falsy, in which
case no exclusion is applied. -/
def checkConflicts (db : List CalendarEvent) (start_time end_time : Nat)
    (exclude_id : Option Nat) : List CalendarEvent :=
  let base := db.filter (conflictsWith start_time end_time)
  match exclude_id with
  | none => base
  | some i => if i = 0 then base else base.filter (fun e => e.id ≠ i)

/-- Ordering used by `list_events`: `ORDER BY start_time ASC`. -/
def evLE (a b : CalendarEvent) : Prop := a.start_time ≤ b.start_time

instance : DecidableRel evLE := fun a b => Nat.decLe a.start_time b.start_time

instance : IsTotal CalendarEvent evLE := ⟨fun a b => Nat.le_total a.start_time b.start_time⟩

instance : IsTrans CalendarEvent evLE := ⟨fun _ _ _ => Nat.le_trans⟩

/-- `CalendarService.list_events(start_date, end_date)`: filter on
`start_time` against the optional bounds, ordered by `start_time` ascending. -/
def listEvents (db : List CalendarEvent) (start_date end_date : Option Nat) :
    List CalendarEvent :=
  let filtered :=
    match start_date, end_date with
    | some s, some e =>
      db.filter (fun ev : CalendarEvent =>
        decide (s ≤ ev.start_time) && decide (ev.start_time ≤ e))
    | some s, none => db.filter (fun ev : CalendarEvent => decide (s ≤ ev.start_time))
    | none, some e => db.filter (fun ev : CalendarEvent => decide (ev.start_time ≤ e))
    | none, none => db
  filtered.insertionSort evLE

/-- The round-up-to-next-30-minute step of `get_next_available_slot`,
translated from the source's minute-of-hour arithmetic:
`minute = (minute // 30 + 1) * 30 % 60`, plus an hour when that wrapped to 0;
a time already on a half-hour boundary is left untouched. -/
def roundUp30 (t : Nat) : Nat :=
  if t % 60 % 30 = 0 then t
  else
    let m := (t % 60 / 30 + 1) * 30 % 60
    let t2 := t - t % 60 + m
    if m = 0 then t2 + 60 else t2

/-- The scan loop of `get_next_available_slot`: return the cursor as soon as
the gap before the next event is at least the duration
(`event.start_time - current_time >= duration`), otherwise advance the cursor
past the event (`if event.end_time > current_time`). -/
def findGap (duration : Nat) : Nat → List CalendarEvent → Nat
  | cur, [] => cur
  | cur, e :: rest =>
    if cur + duration ≤ e.start_time then cur
    else findGap duration (if cur < e.end_time then e.end_time else cur) rest

/-- `CalendarService.get_next_available_slot(duration_minutes, start_from)`.
`start_from = None` falls back to the current time `now`; the event list is
`list_events(start_date=start_from)` — only events with
`start_time >= start_from` are consulted. -/
def nextAvailableSlot (db : List CalendarEvent) (duration_minutes : Nat)
    (start_from : Option Nat) (now : Nat) : Nat :=
  let start := roundUp30 (start_from.getD now)
  let events := listEvents db (some start) none
  if events.isEmpty then start
  else findGap duration_minutes start events

/-! ## Email service (`app/services/email.py`, router `app/routers/email.py`) -/

/-- `EmailStatus` enum from `app/models/__init__.py`. -/
inductive EmailStatus
  | draft
  | pending_confirmation
  | sent
  | failed
deriving DecidableEq, Repr

/-- `Mailbox` enum from `app/models/__init__.py`. -/
inductive Mailbox
  | personal
  | university
  | work
deriving DecidableEq, Repr

/-- A row of the `emails` table. -/
structure Email where
  id : Nat
  mailbox : Mailbox
  to_address : String
  cc_address : Option String
  subject : String
  body : String
  status : EmailStatus
  sent_at : Option Nat
  confirmation_required : Bool
deriving DecidableEq, Repr

/-- `EmailDraft` request schema. -/
structure EmailDraft where
  mailbox : Mailbox
  to_address : String
  cc_address : Option String
  subject : String
  body : String
deriving DecidableEq, Repr

/-- `EmailService.get_email`. -/
def getEmail (db : List Email) (email_id : Nat) : Option Email :=
  db.find? (fun e => e.id = email_id)

/-- ORM row update: replace the row with the given id. -/
def setEmail (db : List Email) (email_id : Nat) (e2 : Email) : List Email :=
  db.map (fun e => if e.id = email_id then e2 else e)

/-- Result of `EmailService.draft_email` (`(Email, Action)` plus store). -/
structure DraftResult where
  store : List Email
  email : Email
  action : Action
deriving DecidableEq, Repr

/-- `EmailService.draft_email`: insert a new row with status `DRAFT` and
`confirmation_required=True`. `next_id` is the id the autoincrement column
assigns to the new row. -/
def draftEmail (db : List Email) (next_id : Nat) (email_data : EmailDraft) :
    DraftResult :=
  let email : Email :=
    ⟨next_id, email_data.mailbox, email_data.to_address, email_data.cc_address,
      email_data.subject, email_data.body, .draft, none, true⟩
  ⟨db ++ [email], email, ⟨.email_drafted⟩⟩

/-- `EmailService._send_email_actual`: the mock transport.  With no SMTP host
configured it pretends the send worked; the configured branch also ends in
`return True` (the real transport is left as a TODO in the source). -/
def sendEmailActual (smtp_host : Option String) (_email : Email) : Bool :=
  match smtp_host with
  | none => true
  | some _ => true

/-- Result of `EmailService.send_email` (`(Optional[Email], Action)` plus the
updated store and the trace of network transmissions performed by
`_send_email_actual` during the call). -/
structure SendResult where
  store : List Email
  email : Option Email
  action : Action
  transmitted : List Email
deriving DecidableEq, Repr

/-- `EmailService.send_email(email_id, confirmed=False)`.  `now` is the wall
clock used for `sent_at = datetime.utcnow()`. -/
def sendEmail (db : List Email) (email_id : Nat) (confirmed : Bool)
    (smtp_host : Option String) (now : Nat) : SendResult :=
  match getEmail db email_id with
  | none => ⟨db, none, ⟨.error⟩, []⟩
  | some email =>
    if email.status = .sent then
      ⟨db, some email, ⟨.error⟩, []⟩
    else if !confirmed then
      let e2 : Email := { email with status := .pending_confirmation }
      ⟨setEmail db email_id e2, some e2, ⟨.confirmation_required⟩, []⟩
    else if sendEmailActual smtp_host email then
      let e2 : Email :=
        { email with status := .sent, sent_at := some now,
                     confirmation_required := false }
      ⟨setEmail db email_id e2, some e2, ⟨.email_sent⟩, [email]⟩
    else
      let e2 : Email := { email with status := .failed }
      ⟨setEmail db email_id e2, some e2, ⟨.error⟩, [email]⟩

/-- Result of `EmailService.delete_draft` (`(bool, Action)` plus store). -/
structure EmailDeleteResult where
  store : List Email
  success : Bool
  action : Action
deriving DecidableEq, Repr

/-- `EmailService.delete_draft(email_id, confirmed=False)`: deletion is gated
behind confirmation only when the email status is `SENT`; any other status is
deleted immediately.  The success action reuses `ActionType.TASK_DELETED`
(commented `# Reusing for simplicity` in the source). -/
def deleteDraft (db : List Email) (email_id : Nat) (confirmed : Bool) :
    EmailDeleteResult :=
  match getEmail db email_id with
  | none => ⟨db, false, ⟨.error⟩⟩
  | some email =>
    if email.status = .sent && !confirmed then
      ⟨db, false, ⟨.confirmation_required⟩⟩
    else
      ⟨db.eraseP (fun e => e.id = email_id), true, ⟨.task_deleted⟩⟩

/-- Router `POST /email/{id}/send`: `confirmed: bool = Query(False)`. -/
def sendEmailEndpoint (db : List Email) (email_id : Nat)
    (confirmed : Option Bool) (smtp_host : Option String) (now : Nat) :
    SendResult :=
  sendEmail db email_id (confirmed.getD false) smtp_host now

/-- Router `DELETE /email/{id}`: `confirmed: bool = Query(False)`. -/
def deleteEmailEndpoint (db : List Email) (email_id : Nat)
    (confirmed : Option Bool) : EmailDeleteResult :=
  deleteDraft db email_id (confirmed.getD false)

/-! ## Context manager (`app/services/conversation.py`) -/

/-- A row of the `messages` table.  A conversation's messages are modelled as
the list already ordered by `created_at` ascending (the order the source's
`select ... order_by(Message.created_at.asc())` returns them in). -/
structure Message where
  role : String
  content : String
deriving DecidableEq, Repr

/-- `ConversationEngine.get_context_messages(conversation, max_messages)`.
`max_messages = max_messages or settings.max_context_messages` — Python `or`
replaces both `None` and `0` by the configured default.  The window
`messages[-m:]` keeps the last `m` entries (for `m = 0`, Python slicing keeps
the whole list). -/
def getContextMessages (msgs : List Message) (max_messages : Option Nat)
    (settings_max : Nat) : List (String × String) :=
  let m := match max_messages with
    | none => settings_max
    | some k => if k = 0 then settings_max else k
  let windowed :=
    if msgs.length > m then
      if m = 0 then msgs else msgs.drop (msgs.length - m)
    else msgs
  windowed.map (fun msg => (msg.role, msg.content))

/-- `settings.max_context_messages` default from `app/config.py`. -/
def maxContextMessagesDefault : Nat := 20

/-! ## Function dispatcher (`app/services/function_calling.py`) -/

/-- The JSON result envelope of `FunctionExecutor.execute`, restricted to the
two discriminator keys the spec constrains; `none` means the key is absent
from the returned dict. -/
structure Envelope where
  success : Option Bool
  error : Option String
deriving DecidableEq, Repr

/-- Irreversible external side effects a capability can perform.  Each value
records one invocation of the corresponding Google-API call.  There is no
email-transmission effect: the `send_email` capability calls a
`GoogleGmailService.send_email` method that the class does not define, so it
always raises `AttributeError` before any network activity. -/
inductive FCEffect
  | gcalCreate (title : String)
  | gtasksCreate (title : String)
  | gtasksComplete (task_id : String)
  | gtasksDelete (task_id : String)
  | kbAdd
deriving DecidableEq, Repr

/-- The `arguments` dict of a function call (values as strings). -/
abbrev Args := List (String × String)

/-- Outcome oracle for the external service call a capability makes, keyed by
capability: `Except.error e` models the call raising an exception with message
`e`; the `Bool` payload of a successful call distinguishes data-available from
data-unavailable results where the capability checks for that. -/
abbrev FCOracle := String → Except String Bool

/-- Required and optional parameter names of each capability's Python
signature (`**arguments` is bound against these). -/
def capSig : String → List String × List String
  | "get_calendar_events" => ([], ["start_date", "end_date", "calendar_id"])
  | "create_calendar_event" =>
    (["title", "start_time", "end_time"], ["description", "location", "calendar_id"])
  | "get_tasks" => ([], ["show_completed", "max_results"])
  | "create_task" => (["title"], ["notes", "due_date"])
  | "complete_task" => (["task_id"], [])
  | "delete_task" => (["task_id"], [])
  | "get_gmail_messages" => ([], ["max_results", "unread_only", "important_only"])
  | "search_emails" => (["query"], ["max_results"])
  | "send_email" => (["to", "subject", "body"], ["cc", "bcc"])
  | "get_current_weather" => ([], ["city", "units"])
  | "get_weather_forecast" => ([], ["city", "days", "units"])
  | "web_search" => (["query"], ["max_results", "include_images", "search_depth"])
  | "get_daily_briefing" => ([], ["include_weather", "include_calendar", "include_tasks"])
  | "get_current_datetime" => ([], ["timezone"])
  | "remember_info" => (["content"], ["category", "tags"])
  | "search_memory" => (["query"], ["limit"])
  | "add_knowledge" => (["title", "content"], ["category"])
  | _ => ([], [])

/-- Keyword-argument binding of `self._cap(**arguments)`: every required
parameter present, no unexpected parameter. -/
def bindOk (required optional : List String) (args : Args) : Bool :=
  required.all (fun k => (args.lookup k).isSome) &&
  args.all (fun kv => required.contains kv.1 || optional.contains kv.1)

/-- Success envelope (`{"success": True, ...}`). -/
def envT : Envelope := ⟨some true, none⟩

/-- Per-capability failure envelope (`{"success": False, "error": e}`). -/
def envF (e : String) : Envelope := ⟨some false, some e⟩

/-- Envelope produced by the dispatcher's own `except` clause
(`{"error": str(e)}` — note: no `success` key). -/
def envOuter (e : String) : Envelope := ⟨none, some e⟩

/-- The `AttributeError` the `_send_email` capability body always raises:
`google_gmail.py` defines no `send_email` method, so the attribute lookup
`self.gmail_service.send_email` fails inside the capability's `try` on every
call (message abstracted, like the `TypeError` text below). -/
def gmailSendAttrMsg : String :=
  "AttributeError: GoogleGmailService has no attribute send_email"

/-- The `AttributeError` the `_search_emails` capability body always raises:
`google_gmail.py` defines no `search_messages` method. -/
def searchEmailsAttrMsg : String :=
  "AttributeError: GoogleGmailService has no attribute search_messages"

/-- Binding of `**arguments` followed by the capability body: a `TypeError`
from binding is raised outside the capability's own `try` and is caught by
the dispatcher's outer handler. -/
def withBind (sig : List String × List String) (args : Args)
    (k : Unit → Envelope × List FCEffect) : Envelope × List FCEffect :=
  if bindOk sig.1 sig.2 args then k ()
  else (envOuter "TypeError: invalid arguments", [])

/-- The common `try/except` body of a service-backed capability: on a raised
exception return `{"success": False, "error": str(e)}`. -/
def svcTry (outcome : Except String Bool) (wrap : String → String) : Envelope :=
  match outcome with
  | .ok _ => envT
  | .error e => envF (wrap e)

/-- `FunctionExecutor.execute(function_name, arguments)`, the string-keyed
`elif` chain over the closed capability registry.  Returns the result
envelope together with the trace of irreversible Google-API invocations the
call performed.  `get_daily_briefing` composes three read-only
sub-capabilities whose failures its sub-calls absorb, and
`get_current_datetime` makes no external call, so both always succeed.
`send_email` and `search_emails` name Gmail-service methods that do not
exist, so their bodies always raise `AttributeError` into their own
handlers: they can never transmit and always return a failure envelope. -/
def execute (oracle : FCOracle) (function_name : String) (arguments : Args) :
    Envelope × List FCEffect :=
  if function_name = "get_calendar_events" then
    withBind (capSig "get_calendar_events") arguments (fun _ =>
      (svcTry (oracle "get_calendar_events") id, []))
  else if function_name = "create_calendar_event" then
    withBind (capSig "create_calendar_event") arguments (fun _ =>
      (svcTry (oracle "create_calendar_event") id,
        [FCEffect.gcalCreate ((arguments.lookup "title").getD "")]))
  else if function_name = "get_tasks" then
    withBind (capSig "get_tasks") arguments (fun _ =>
      (svcTry (oracle "get_tasks") id, []))
  else if function_name = "create_task" then
    withBind (capSig "create_task") arguments (fun _ =>
      (svcTry (oracle "create_task") id,
        [FCEffect.gtasksCreate ((arguments.lookup "title").getD "")]))
  else if function_name = "complete_task" then
    withBind (capSig "complete_task") arguments (fun _ =>
      (svcTry (oracle "complete_task") id,
        [FCEffect.gtasksComplete ((arguments.lookup "task_id").getD "")]))
  else if function_name = "delete_task" then
    withBind (capSig "delete_task") arguments (fun _ =>
      (svcTry (oracle "delete_task") id,
        [FCEffect.gtasksDelete ((arguments.lookup "task_id").getD "")]))
  else if function_name = "get_gmail_messages" then
    withBind (capSig "get_gmail_messages") arguments (fun _ =>
      (svcTry (oracle "get_gmail_messages") id, []))
  else if function_name = "search_emails" then
    withBind (capSig "search_emails") arguments (fun _ =>
      (envF searchEmailsAttrMsg, []))
  else if function_name = "send_email" then
    withBind (capSig "send_email") arguments (fun _ =>
      (envF gmailSendAttrMsg, []))
  else if function_name = "check_server_status" then
    withBind (capSig "check_server_status") arguments (fun _ =>
      (svcTry (oracle "get_system_metrics")
        (fun e => "Failed to get system metrics: " ++ e), []))
  else if function_name = "who_am_i" then
    withBind (capSig "who_am_i") arguments (fun _ =>
      (svcTry (oracle "get_ai_configuration")
        (fun e => "Failed to get AI configuration: " ++ e), []))
  else if function_name = "get_system_metrics" then
    withBind (capSig "get_system_metrics") arguments (fun _ =>
      (svcTry (oracle "get_system_metrics")
        (fun e => "Failed to get system metrics: " ++ e), []))
  else if function_name = "get_ai_configuration" then
    withBind (capSig "get_ai_configuration") arguments (fun _ =>
      (svcTry (oracle "get_ai_configuration")
        (fun e => "Failed to get AI configuration: " ++ e), []))
  else if function_name = "get_current_weather" then
    withBind (capSig "get_current_weather") arguments (fun _ =>
      (match oracle "get_current_weather" with
       | .ok true => envT
       | .ok false => envF "Weather data not available"
       | .error e => envF e, []))
  else if function_name = "get_weather_forecast" then
    withBind (capSig "get_weather_forecast") arguments (fun _ =>
      (match oracle "get_weather_forecast" with
       | .ok true => envT
       | .ok false => envF "Forecast data not available"
       | .error e => envF e, []))
  else if function_name = "web_search" then
    withBind (capSig "web_search") arguments (fun _ =>
      (match oracle "web_search" with
       | .ok true => envT
       | .ok false => envF "Tavily API key not configured"
       | .error e => envF e, []))
  else if function_name = "get_daily_briefing" then
    withBind (capSig "get_daily_briefing") arguments (fun _ => (envT, []))
  else if function_name = "get_current_datetime" then
    withBind (capSig "get_current_datetime") arguments (fun _ => (envT, []))
  else if function_name = "remember_info" then
    withBind (capSig "remember_info") arguments (fun _ =>
      (svcTry (oracle "remember_info") id, [FCEffect.kbAdd]))
  else if function_name = "search_memory" then
    withBind (capSig "search_memory") arguments (fun _ =>
      (svcTry (oracle "search_memory") id, []))
  else if function_name = "add_knowledge" then
    withBind (capSig "add_knowledge") arguments (fun _ =>
      (svcTry (oracle "add_knowledge") id, [FCEffect.kbAdd]))
  else
    (envOuter ("Unknown function: " ++ function_name), [])

/-- The closed registry: the function names the `elif` chain dispatches, in
source order. -/
def registryNames : List String :=
  ["get_calendar_events", "create_calendar_event", "get_tasks", "create_task",
   "complete_task", "delete_task", "get_gmail_messages", "search_emails",
   "send_email", "check_server_status", "who_am_i", "get_system_metrics",
   "get_ai_configuration", "get_current_weather", "get_weather_forecast",
   "web_search", "get_daily_briefing", "get_current_datetime",
   "remember_info", "search_memory", "add_knowledge"]

/-- The registered capabilities whose external service call exists and can
either succeed or raise (all of the registry except the two purely local
ones and the two whose Gmail-service method is missing, `send_email` and
`search_emails`, which raise unconditionally). -/
def fallibleNames : List String :=
  ["get_calendar_events", "create_calendar_event", "get_tasks", "create_task",
   "complete_task", "delete_task", "get_gmail_messages",
   "check_server_status", "who_am_i", "get_system_metrics",
   "get_ai_configuration", "get_current_weather", "get_weather_forecast",
   "web_search", "remember_info", "search_memory", "add_knowledge"]

/-- Which oracle key a capability consults (`check_server_status` and
`who_am_i` are aliases of the diagnostics implementations). -/
def svcKeyFor : String → String
  | "check_server_status" => "get_system_metrics"
  | "who_am_i" => "get_ai_configuration"
  | n => n

/-- How a capability decorates the exception message in its failure envelope
(the diagnostics service prefixes its own description). -/
def errWrapFor (function_name : String) (e : String) : String :=
  if svcKeyFor function_name = "get_system_metrics" then
    "Failed to get system metrics: " ++ e
  else if svcKeyFor function_name = "get_ai_configuration" then
    "Failed to get AI configuration: " ++ e
  else e

/-! ## Streaming orchestrator (`chat_stream.generate` in `app/routers/chat.py`) -/

/-- Events of the model's first-pass output stream
(`llm.generate_with_functions_stream`). -/
inductive LLMEvent
  | chunk (content : String)
  | function_call (name : String) (arguments : Args)
  | done
deriving DecidableEq, Repr

/-- The framed SSE events `generate()` yields to the client. -/
inductive StreamEvent
  | start (conversation_id : Nat)
  | chunk (content : String)
  | function_start (name : String)
  | function_result (name : String) (result : Envelope)
  | title_generated (title : String)
  | done (content : String)
  | error (message : String)
deriving DecidableEq, Repr

/-- The first-pass loop of `generate()`: forward `chunk` events and
accumulate them into `full_response`; on the first `function_call` emit
`function_start`, execute it, emit `function_result`, and `break` (events
after it are never consumed); `done` events are passed over.  Returns the
events yielded, the serviced call (if any) with its result, and the
accumulated text. -/
def runFirstPass (oracle : FCOracle) :
    List LLMEvent → List StreamEvent × Option (String × Envelope) × String
  | [] => ([], none, "")
  | .chunk c :: rest =>
    let (evs, fc, acc) := runFirstPass oracle rest
    (.chunk c :: evs, fc, c ++ acc)
  | .function_call n args :: _ =>
    let r := (execute oracle n args).1
    ([.function_start n, .function_result n r], some (n, r), "")
  | .done :: rest => runFirstPass oracle rest

/-- The tail of `generate()` after the model passes: when `full_response` is
non-empty, persist it, generate a title when the conversation has none
(`title_generated` on success, a silent fallback title on failure), commit,
and run the fact-extraction step whose exceptions are swallowed by its own
handler (`extract_exn` is consumed without effect on the stream); finally
yield `done`.  A `some` exception parameter makes the corresponding await
raise, which the top-level handler converts into one `error` event. -/
def finishTurn (conv_title : Option String) (full : String)
    (persist_exn : Option String) (title_outcome : Except String String)
    (commit_exn : Option String) (extract_exn : Option String) :
    List StreamEvent :=
  if full = "" then [.done full]
  else
    match persist_exn with
    | some m => [.error m]
    | none =>
      let titleEvs : List StreamEvent :=
        match conv_title with
        | none =>
          match title_outcome with
          | .ok t => [.title_generated t]
          | .error _ => []
        | some _ => []
      titleEvs ++
        match commit_exn with
        | some m => [.error m]
        | none =>
          let _ := extract_exn
          [.done full]

/-- `generate()` as a whole: yield `start` (outside the `try`), run the
first pass (`first_exn` models the model stream raising after its events are
exhausted, which can only be observed when no `function_call` caused a
`break`), then — when a function was serviced — stream the follow-up
narration (`follow_exn` models that stream raising at its end), then the
persistence tail.  Every exception inside the `try` yields exactly one
`error` event. -/
def chatStream (conversation_id : Nat) (conv_title : Option String)
    (oracle : FCOracle) (first : List LLMEvent) (first_exn : Option String)
    (follow : List String) (follow_exn : Option String)
    (persist_exn : Option String) (title_outcome : Except String String)
    (commit_exn : Option String) (extract_exn : Option String) :
    List StreamEvent :=
  let (evs1, fc, acc1) := runFirstPass oracle first
  StreamEvent.start conversation_id ::
    (evs1 ++
      match fc with
      | none =>
        match first_exn with
        | some m => [.error m]
        | none =>
          finishTurn conv_title acc1 persist_exn title_outcome commit_exn
            extract_exn
      | some _ =>
        follow.map StreamEvent.chunk ++
          match follow_exn with
          | some m => [.error m]
          | none =>
            finishTurn conv_title (acc1 ++ String.join follow) persist_exn
              title_outcome commit_exn extract_exn)

/-- Terminal events of the protocol: `done` and `error`. -/
def isTerminal : StreamEvent → Bool
  | .done _ => true
  | .error _ => true
  | _ => false

/-! ## Claims -/

/-- C7: the conflict predicate over half-open intervals is exactly
`A.start < B.end && A.end > B.start`; it is symmetric, and reflexive on
non-degenerate intervals. -/
theorem C7_conflict_predicate (A B : CalendarEvent) :
    (conflictsWith A.start_time A.end_time B =
      (decide (A.start_time < B.end_time) && decide (A.end_time > B.start_time))) ∧
    conflictsWith A.start_time A.end_time B =
      conflictsWith B.start_time B.end_time A ∧
    (A.start_time < A.end_time → conflictsWith A.start_time A.end_time A = true) := by
  refine ⟨?_, ?_, ?_⟩
  · simp [conflictsWith, Bool.and_comm]
  · simp [conflictsWith, Bool.and_comm]
  · intro h
    simp [conflictsWith, h]

/-- Witness for C7 at a concrete non-degenerate event. -/
theorem C7_witness :
    conflictsWith 10 20 ⟨1, "standup", 10, 20⟩ = true :=
  (C7_conflict_predicate ⟨1, "standup", 10, 20⟩ ⟨1, "standup", 10, 20⟩).2.2
    (by decide)

/-- C10: with `confirmed` false or omitted, `delete_draft` deletes an email
whose status is not `sent` immediately and returns success; the confirmation
prompt is issued only when the target's status is `sent`. -/
theorem C10_delete_unsent (db : List Email) (email_id : Nat) (c : Option Bool)
    (hc : c = none ∨ c = some false) :
    (∀ e, getEmail db email_id = some e → e.status ≠ .sent →
      deleteEmailEndpoint db email_id c =
        ⟨db.eraseP (fun x => x.id = email_id), true, ⟨.task_deleted⟩⟩) ∧
    ((deleteEmailEndpoint db email_id c).action.type = .confirmation_required →
      ∃ e, getEmail db email_id = some e ∧ e.status = .sent) := by
  have hc2 : c.getD false = false := by rcases hc with rfl | rfl <;> rfl
  constructor
  · intro e he hne
    simp [deleteEmailEndpoint, hc2, deleteDraft, he, hne]
  · intro hconf
    rcases hfind : getEmail db email_id with _ | e
    · simp [deleteEmailEndpoint, hc2, deleteDraft, hfind] at hconf
    · by_cases hs : e.status = .sent
      · exact ⟨e, rfl, hs⟩
      · simp [deleteEmailEndpoint, hc2, deleteDraft, hfind, hs] at hconf

/-- Witness for C10 at a concrete draft email. -/
theorem C10_witness :
    deleteEmailEndpoint
        [⟨1, .personal, "a@example.com", none, "hi", "text", .draft, none, true⟩]
        1 none = ⟨[], true, ⟨.task_deleted⟩⟩ :=
  (C10_delete_unsent
      [⟨1, .personal, "a@example.com", none, "hi", "text", .draft, none, true⟩]
      1 none (Or.inl rfl)).1
    ⟨1, .personal, "a@example.com", none, "hi", "text", .draft, none, true⟩
    (by decide) (by decide)

/-- C9 as stated is false: the source resolves the window bound with Python
`or`, so an explicit bound of `0` falls back to the configured default and
more than `0` entries come back. -/
theorem C9_counterexample :
    ¬((getContextMessages [⟨"user", "a"⟩, ⟨"assistant", "b"⟩] (some 0)
        maxContextMessagesDefault).length ≤ 0) := by
  decide

/-- C9 amended: for every positive `maxMessages` bound, the windowed context
has exactly `min maxMessages (length)` entries and is a suffix of the full
ordered message list (a bound of `0` or `None` is replaced by the configured
default instead). -/
theorem C9_windowed_context (msgs : List Message) (k settings_max : Nat)
    (hk : 0 < k) :
    (getContextMessages msgs (some k) settings_max).length = min k msgs.length ∧
    (getContextMessages msgs (some k) settings_max).length ≤ k ∧
    List.IsSuffix (getContextMessages msgs (some k) settings_max)
      (msgs.map (fun m => (m.role, m.content))) := by
  have hk0 : k ≠ 0 := Nat.pos_iff_ne_zero.mp hk
  by_cases hlen : msgs.length > k
  · have h1 : getContextMessages msgs (some k) settings_max =
        (msgs.drop (msgs.length - k)).map (fun m => (m.role, m.content)) := by
      simp [getContextMessages, hk0, hlen]
    refine ⟨?_, ?_, ?_⟩
    · rw [h1]; simp; omega
    · rw [h1]; simp; omega
    · rw [h1, List.map_drop]
      exact List.drop_suffix _ _
  · have h1 : getContextMessages msgs (some k) settings_max =
        msgs.map (fun m => (m.role, m.content)) := by
      simp [getContextMessages, hk0, hlen]
    refine ⟨?_, ?_, ?_⟩
    · rw [h1]; simp; omega
    · rw [h1]; simp; omega
    · rw [h1]

/-- Witness for C9 at a concrete conversation and bound. -/
theorem C9_witness :
    (getContextMessages [⟨"user", "a"⟩, ⟨"assistant", "b"⟩] (some 1) 20).length ≤ 1 :=
  (C9_windowed_context [⟨"user", "a"⟩, ⟨"assistant", "b"⟩] 1 20 (by decide)).2.1

/-- C2 as stated is false: `send_email` with `confirmed=false` persists a
status change — the stored draft moves to `pending_confirmation`. -/
theorem C2_counterexample :
    (sendEmailEndpoint
        [⟨1, .personal, "a@example.com", none, "hi", "text", .draft, none, true⟩]
        1 none none 0).store ≠
      [⟨1, .personal, "a@example.com", none, "hi", "text", .draft, none, true⟩] := by
  decide

/-- C2 amended: with `confirmed` false or omitted, no deletion and no
transmission is performed and the result kind is `confirmation_required`;
the three delete endpoints leave the store untouched, while `sendEmail`
additionally persists the target's status as `pending_confirmation`. -/
theorem C2_gated_mutations (c : Option Bool) (hc : c = none ∨ c = some false) :
    (∀ (db : List Task) (id : Nat) (t : Task), getTask db id = some t →
      deleteTaskEndpoint db id c = ⟨db, false, ⟨.confirmation_required⟩⟩) ∧
    (∀ (db : List CalendarEvent) (id : Nat) (ev : CalendarEvent),
      getEvent db id = some ev →
      deleteEventEndpoint db id c = ⟨db, false, ⟨.confirmation_required⟩⟩) ∧
    (∀ (db : List Email) (id : Nat) (e : Email), getEmail db id = some e →
      e.status = .sent →
      deleteEmailEndpoint db id c = ⟨db, false, ⟨.confirmation_required⟩⟩) ∧
    (∀ (db : List Email) (id : Nat) (e : Email) (smtp : Option String)
      (now : Nat), getEmail db id = some e → e.status ≠ .sent →
      sendEmailEndpoint db id c smtp now =
        ⟨setEmail db id { e with status := .pending_confirmation },
          some { e with status := .pending_confirmation },
          ⟨.confirmation_required⟩, []⟩) := by
  have hc2 : c.getD false = false := by rcases hc with rfl | rfl <;> rfl
  refine ⟨?_, ?_, ?_, ?_⟩
  · intro db id t ht
    simp [deleteTaskEndpoint, hc2, deleteTask, ht]
  · intro db id ev hev
    simp [deleteEventEndpoint, hc2, deleteEvent, hev]
  · intro db id e he hs
    simp [deleteEmailEndpoint, hc2, deleteDraft, he, hs]
  · intro db id e smtp now he hne
    simp [sendEmailEndpoint, hc2, sendEmail, he, hne]

/-- Witness for C2 at a concrete pending task. -/
theorem C2_witness :
    deleteTaskEndpoint [⟨7, "pay rent", .pending⟩] 7 (some false) =
      ⟨[⟨7, "pay rent", .pending⟩], false, ⟨.confirmation_required⟩⟩ :=
  (C2_gated_mutations (some false) (Or.inr rfl)).1
    [⟨7, "pay rent", .pending⟩] 7 ⟨7, "pay rent", .pending⟩ (by decide)

/-- C3 as stated is false: a task-completion call with `confirmed` omitted
completes the task (the parameter defaults to `True` in both the service and
the router) instead of returning a confirmation request. -/
theorem C3_counterexample :
    ¬((completeTaskEndpoint [⟨1, "pay rent", .pending⟩] 1 none).store =
        [⟨1, "pay rent", .pending⟩] ∧
      (completeTaskEndpoint [⟨1, "pay rent", .pending⟩] 1 none).action =
        some ⟨.confirmation_required⟩) := by
  decide

/-- C3 amended: send and delete calls treat an absent `confirmed` as false,
mutate nothing irreversibly and return `confirmation_required`; task
completion returns `confirmation_required` without mutation only when
`confirmed=false` is passed explicitly — an omitted `confirmed` defaults to
`true` there and completes the task. -/
theorem C3_confirmation_protocol (db : List Task) (id : Nat) :
    completeTaskEndpoint db id (some false) =
      ⟨db, none, some ⟨.confirmation_required⟩⟩ ∧
    (∀ t, getTask db id = some t →
      completeTaskEndpoint db id none =
        ⟨db.map (fun x => if x.id = id then { t with status := TaskStatus.completed }
            else x),
          some { t with status := TaskStatus.completed },
          some ⟨.task_completed⟩⟩) ∧
    (∀ (c : Option Bool), c = none ∨ c = some false →
      (deleteTaskEndpoint db id c).store = db ∧
      (deleteTaskEndpoint db id c).success = false) ∧
    (∀ (edb : List Email) (eid : Nat) (c : Option Bool) (smtp : Option String)
      (now : Nat), c = none ∨ c = some false →
      (sendEmailEndpoint edb eid c smtp now).transmitted = []) := by
  refine ⟨?_, ?_, ?_, ?_⟩
  · simp [completeTaskEndpoint, completeTask]
  · intro t ht
    simp [completeTaskEndpoint, completeTask, ht]
  · intro c hc
    have hc2 : c.getD false = false := by rcases hc with rfl | rfl <;> rfl
    rcases hfind : getTask db id with _ | t <;>
      simp [deleteTaskEndpoint, hc2, deleteTask, hfind]
  · intro edb eid c smtp now hc
    have hc2 : c.getD false = false := by rcases hc with rfl | rfl <;> rfl
    rcases hfind : getEmail edb eid with _ | e
    · simp [sendEmailEndpoint, hc2, sendEmail, hfind]
    · by_cases hs : e.status = .sent <;>
        simp [sendEmailEndpoint, hc2, sendEmail, hfind, hs]

/-- Witness for C3 at a concrete pending task. -/
theorem C3_witness :
    completeTaskEndpoint [⟨1, "pay rent", .pending⟩] 1 none =
      ⟨[⟨1, "pay rent", .completed⟩], some ⟨1, "pay rent", .completed⟩,
        some ⟨.task_completed⟩⟩ :=
  (C3_confirmation_protocol [⟨1, "pay rent", .pending⟩] 1).2.1
    ⟨1, "pay rent", .pending⟩ (by decide)

/-- The scan cursor never moves backwards. -/
theorem findGap_le (d : Nat) (l : List CalendarEvent) :
    ∀ cur : Nat, cur ≤ findGap d cur l := by
  induction l with
  | nil => intro cur; simp [findGap]
  | cons e rest ih =>
    intro cur
    unfold findGap
    split
    · exact Nat.le_refl _
    · refine Nat.le_trans ?_ (ih _)
      split <;> omega

/-- On a list sorted by start time, the slot the scan returns is disjoint
from every listed event: each event either starts after the whole slot or
ends at or before its beginning. -/
theorem findGap_no_overlap (d : Nat) (l : List CalendarEvent) :
    ∀ cur : Nat, l.Sorted evLE →
      ∀ e ∈ l, findGap d cur l + d ≤ e.start_time ∨
        e.end_time ≤ findGap d cur l := by
  induction l with
  | nil => intro cur _ e he; cases he
  | cons a rest ih =>
    intro cur hs e he
    rw [List.sorted_cons] at hs
    obtain ⟨hhead, hrest⟩ := hs
    unfold findGap
    split
    · rename_i hgap
      rcases List.mem_cons.mp he with rfl | hmem
      · exact Or.inl hgap
      · exact Or.inl (Nat.le_trans hgap (hhead e hmem))
    · rcases List.mem_cons.mp he with rfl | hmem
      · refine Or.inr (Nat.le_trans ?_ (findGap_le d rest _))
        split <;> omega
      · exact ih _ hrest e hmem

/-- C6 as stated is false: the scan only consults events with
`start_time >= start_from`, so an event already in progress at `start_from`
is ignored and the returned slot overlaps it.  Here the store holds one
event covering minutes `[0, 120)`; asking for a 30-minute slot from minute
`60` returns minute `60`, inside that event. -/
theorem C6_counterexample :
    nextAvailableSlot [⟨1, "busy", 0, 120⟩] 30 (some 60) 0 = 60 ∧
    (⟨1, "busy", 0, 120⟩ : CalendarEvent).start_time <
      nextAvailableSlot [⟨1, "busy", 0, 120⟩] 30 (some 60) 0 + 30 ∧
    nextAvailableSlot [⟨1, "busy", 0, 120⟩] 30 (some 60) 0 <
      (⟨1, "busy", 0, 120⟩ : CalendarEvent).end_time := by
  decide

/-- C6 amended: the slot never overlaps any existing event whose
`start_time` is at or after the rounded `startFrom` (events already in
progress are outside the query window and may overlap), the rounding step is
the 30-minute ceiling, and an empty queried event list returns the rounded
`startFrom` immediately. -/
theorem C6_next_available_slot (db : List CalendarEvent) (d startFrom : Nat) :
    roundUp30 startFrom = 30 * ((startFrom + 29) / 30) ∧
    (listEvents db (some (roundUp30 startFrom)) none = [] →
      nextAvailableSlot db d (some startFrom) 0 = roundUp30 startFrom) ∧
    (∀ e ∈ db, roundUp30 startFrom ≤ e.start_time →
      ¬(e.start_time < nextAvailableSlot db d (some startFrom) 0 + d ∧
        nextAvailableSlot db d (some startFrom) 0 < e.end_time)) := by
  refine ⟨?_, ?_, ?_⟩
  · unfold roundUp30
    split
    · omega
    · dsimp only
      split <;> omega
  · intro hnil
    simp [nextAvailableSlot, hnil]
  · intro e he hstart
    have hefilter : e ∈ (db.filter
        (fun ev : CalendarEvent => decide (roundUp30 startFrom ≤ ev.start_time))) :=
      List.mem_filter.mpr ⟨he, by simpa using hstart⟩
    have hlist : listEvents db (some (roundUp30 startFrom)) none =
        (db.filter
          (fun ev : CalendarEvent =>
            decide (roundUp30 startFrom ≤ ev.start_time))).insertionSort evLE := by
      simp [listEvents]
    have hmem : e ∈ listEvents db (some (roundUp30 startFrom)) none := by
      rw [hlist]
      exact ((List.perm_insertionSort evLE _).mem_iff).mpr hefilter
    have hne : ¬(listEvents db (some (roundUp30 startFrom)) none).isEmpty := by
      intro habs
      rw [List.isEmpty_iff] at habs
      rw [habs] at hmem
      cases hmem
    have hslot : nextAvailableSlot db d (some startFrom) 0 =
        findGap d (roundUp30 startFrom)
          (listEvents db (some (roundUp30 startFrom)) none) := by
      simp only [nextAvailableSlot, Option.getD]
      rw [if_neg hne]
    have hsorted : (listEvents db (some (roundUp30 startFrom)) none).Sorted evLE := by
      rw [hlist]
      exact List.sorted_insertionSort evLE _
    have hdisj := findGap_no_overlap d _ (roundUp30 startFrom) hsorted e hmem
    rw [hslot]
    rcases hdisj with h | h <;> omega

/-- Witness for C6: a 30-minute slot from minute 10 against one event at
`[90, 120)` — the returned slot `[30, 60)` does not overlap it. -/
theorem C6_witness :
    ¬((⟨1, "meeting", 90, 120⟩ : CalendarEvent).start_time <
        nextAvailableSlot [⟨1, "meeting", 90, 120⟩] 30 (some 10) 0 + 30 ∧
      nextAvailableSlot [⟨1, "meeting", 90, 120⟩] 30 (some 10) 0 <
        (⟨1, "meeting", 90, 120⟩ : CalendarEvent).end_time) :=
  (C6_next_available_slot [⟨1, "meeting", 90, 120⟩] 30 10).2.2
    ⟨1, "meeting", 90, 120⟩ (by decide) (by decide)

/-- A freshly inserted row is found by its id when no existing row holds it. -/
theorem getEmail_append_fresh (db : List Email) (e : Email)
    (h : ∀ x ∈ db, x.id ≠ e.id) : getEmail (db ++ [e]) e.id = some e := by
  induction db with
  | nil => simp [getEmail]
  | cons x xs ih =>
    have hx : ¬(x.id = e.id) := h x (List.mem_cons_self x xs)
    have hxs : ∀ y ∈ xs, y.id ≠ e.id := fun y hy => h y (List.mem_cons_of_mem x hy)
    simpa [getEmail, List.find?_cons, hx] using ih hxs

/-- After an ORM row update of an existing id, lookup returns the new row. -/
theorem getEmail_setEmail_self (db : List Email) (email_id : Nat) (e2 : Email)
    (hid : e2.id = email_id) (hexist : (getEmail db email_id).isSome) :
    getEmail (setEmail db email_id e2) email_id = some e2 := by
  induction db with
  | nil => simp [getEmail] at hexist
  | cons x xs ih =>
    by_cases hx : x.id = email_id
    · simp [getEmail, setEmail, List.find?_cons, hx, hid]
    · have hexist2 : (getEmail xs email_id).isSome := by
        simpa [getEmail, List.find?_cons, hx] using hexist
      simpa [getEmail, setEmail, List.find?_cons, hx] using ih hexist2

/-- The mock transport reports success in both its branches. -/
theorem sendEmailActual_true (smtp : Option String) (e : Email) :
    sendEmailActual smtp e = true := by
  cases smtp <;> rfl

/-- C4: the email lifecycle follows the two-phase protocol: drafting yields
status `draft`; an unconfirmed send moves the email to
`pending_confirmation` without any transmission; a confirmed send transmits
once, moves it to `sent` and populates `sent_at`; a further send call on the
sent email returns an error, mutates nothing and transmits nothing. -/
theorem C4_email_lifecycle (db : List Email) (next_id : Nat)
    (data : EmailDraft) (smtp : Option String) (now now2 now3 : Nat)
    (c3 : Bool) (hfresh : ∀ x ∈ db, x.id ≠ next_id) :
    (draftEmail db next_id data).email.status = .draft ∧
    (draftEmail db next_id data).action.type = .email_drafted ∧
    (let s1 := sendEmail (draftEmail db next_id data).store next_id false smtp now
     s1.transmitted = [] ∧ s1.action.type = .confirmation_required ∧
     (getEmail s1.store next_id).map Email.status = some .pending_confirmation ∧
     (let s2 := sendEmail s1.store next_id true smtp now2
      s2.action.type = .email_sent ∧
      (getEmail s2.store next_id).map Email.status = some .sent ∧
      (getEmail s2.store next_id).bind Email.sent_at = some now2 ∧
      s2.transmitted.length = 1 ∧
      (let s3 := sendEmail s2.store next_id c3 smtp now3
       s3.store = s2.store ∧ s3.action.type = .error ∧
       s3.transmitted = []))) := by
  refine ⟨rfl, rfl, ?_⟩
  have hget1 : getEmail (draftEmail db next_id data).store next_id =
      some ⟨next_id, data.mailbox, data.to_address, data.cc_address,
        data.subject, data.body, .draft, none, true⟩ :=
    getEmail_append_fresh db _ hfresh
  have hs1 : sendEmail (draftEmail db next_id data).store next_id false smtp now =
      ⟨setEmail (draftEmail db next_id data).store next_id
          ⟨next_id, data.mailbox, data.to_address, data.cc_address,
            data.subject, data.body, .pending_confirmation, none, true⟩,
        some ⟨next_id, data.mailbox, data.to_address, data.cc_address,
          data.subject, data.body, .pending_confirmation, none, true⟩,
        ⟨.confirmation_required⟩, []⟩ := by
    simp [sendEmail, hget1]
  rw [hs1]
  have hget2 : getEmail
      (setEmail (draftEmail db next_id data).store next_id
        ⟨next_id, data.mailbox, data.to_address, data.cc_address,
          data.subject, data.body, .pending_confirmation, none, true⟩) next_id =
      some ⟨next_id, data.mailbox, data.to_address, data.cc_address,
        data.subject, data.body, .pending_confirmation, none, true⟩ := by
    refine getEmail_setEmail_self _ _ _ rfl ?_
    rw [hget1]; rfl
  refine ⟨rfl, rfl, ?_⟩
  dsimp only
  rw [hget2]
  refine ⟨rfl, ?_⟩
  have hs2 : sendEmail
      (setEmail (draftEmail db next_id data).store next_id
        ⟨next_id, data.mailbox, data.to_address, data.cc_address,
          data.subject, data.body, .pending_confirmation, none, true⟩)
      next_id true smtp now2 =
      ⟨setEmail
          (setEmail (draftEmail db next_id data).store next_id
            ⟨next_id, data.mailbox, data.to_address, data.cc_address,
              data.subject, data.body, .pending_confirmation, none, true⟩)
          next_id
          ⟨next_id, data.mailbox, data.to_address, data.cc_address,
            data.subject, data.body, .sent, some now2, false⟩,
        some ⟨next_id, data.mailbox, data.to_address, data.cc_address,
          data.subject, data.body, .sent, some now2, false⟩,
        ⟨.email_sent⟩,
        [⟨next_id, data.mailbox, data.to_address, data.cc_address,
          data.subject, data.body, .pending_confirmation, none, true⟩]⟩ := by
    simp [sendEmail, hget2, sendEmailActual_true]
  rw [hs2]
  have hget3 : getEmail
      (setEmail
        (setEmail (draftEmail db next_id data).store next_id
          ⟨next_id, data.mailbox, data.to_address, data.cc_address,
            data.subject, data.body, .pending_confirmation, none, true⟩)
        next_id
        ⟨next_id, data.mailbox, data.to_address, data.cc_address,
          data.subject, data.body, .sent, some now2, false⟩) next_id =
      some ⟨next_id, data.mailbox, data.to_address, data.cc_address,
        data.subject, data.body, .sent, some now2, false⟩ := by
    refine getEmail_setEmail_self _ _ _ rfl ?_
    rw [hget2]; rfl
  have hs3 : sendEmail
      (setEmail
        (setEmail (draftEmail db next_id data).store next_id
          ⟨next_id, data.mailbox, data.to_address, data.cc_address,
            data.subject, data.body, .pending_confirmation, none, true⟩)
        next_id
        ⟨next_id, data.mailbox, data.to_address, data.cc_address,
          data.subject, data.body, .sent, some now2, false⟩)
      next_id c3 smtp now3 =
      ⟨setEmail
          (setEmail (draftEmail db next_id data).store next_id
            ⟨next_id, data.mailbox, data.to_address, data.cc_address,
              data.subject, data.body, .pending_confirmation, none, true⟩)
          next_id
          ⟨next_id, data.mailbox, data.to_address, data.cc_address,
            data.subject, data.body, .sent, some now2, false⟩,
        some ⟨next_id, data.mailbox, data.to_address, data.cc_address,
          data.subject, data.body, .sent, some now2, false⟩,
        ⟨.error⟩, []⟩ := by
    simp [sendEmail, hget3]
  refine ⟨rfl, ?_, ?_, rfl, ?_⟩
  · dsimp only
    rw [hget3]
    rfl
  · dsimp only
    rw [hget3]
    rfl
  · dsimp only
    rw [hs3]
    exact ⟨rfl, rfl, rfl⟩

/-- Witness for C4 on an empty store. -/
theorem C4_witness :
    (draftEmail [] 1 ⟨.personal, "a@example.com", none, "hi", "text"⟩).email.status =
      EmailStatus.draft :=
  (C4_email_lifecycle [] 1 ⟨.personal, "a@example.com", none, "hi", "text"⟩
      none 0 1 2 true (by simp)).1

/-- C1 is violated by the code on the task half: the function-calling path
deletes a Google task with no `confirmed` parameter anywhere — the
capability does not even accept one, so a caller supplying `confirmed` gets
a `TypeError` envelope, and a caller omitting it gets the remote deletion
performed unconditionally.  The email half of the claim is not violated:
the `send_email` capability names a Gmail-service method that does not
exist, so every call fails inside its own handler, produces no transmission
effect for any oracle and arguments, and returns a failure envelope. -/
theorem C1_ungated_task_delete :
    execute (fun _ => .ok true) "delete_task" [("task_id", "42")] =
      (envT, [FCEffect.gtasksDelete "42"]) ∧
    (execute (fun _ => .ok true) "delete_task"
        [("task_id", "42"), ("confirmed", "true")]).1.success = none ∧
    (∀ (oracle : FCOracle) (args : Args),
      (execute oracle "send_email" args).2 = ([] : List FCEffect)) ∧
    (execute (fun _ => .ok true) "send_email"
        [("to", "a@example.com"), ("subject", "hi"), ("body", "text")]).1 =
      envF gmailSendAttrMsg := by
  refine ⟨by decide, by decide, ?_, by decide⟩
  intro oracle args
  simp [execute, withBind]
  split <;> rfl

/-- C8 as stated is false: an unknown function name yields
`{"error": "Unknown function: <name>"}` — there is no `success` key and the
message differs from the claimed `"unknown function"`. -/
theorem C8_counterexample :
    ¬((execute (fun _ => .ok true) "frobnicate" []).1.success = some false ∧
      (execute (fun _ => .ok true) "frobnicate" []).1.error =
        some "unknown function") := by
  decide

/-- C8 amended: a name outside the closed registry returns the envelope
`{"error": "Unknown function: <name>"}` (no `success` key) instead of
raising, and every registered service-backed capability converts an
exception raised inside it into a `{"success": false, "error": e}` envelope
(the diagnostics capabilities prefix their own description) instead of
letting it propagate past the dispatcher boundary — including `send_email`
and `search_emails`, whose missing Gmail-service methods raise
`AttributeError` on every call. -/
theorem C8_dispatcher (oracle : FCOracle) (name : String) (args : Args) :
    (name ∉ registryNames →
      execute oracle name args = (envOuter ("Unknown function: " ++ name), [])) ∧
    (∀ e : String, name ∈ fallibleNames →
      bindOk (capSig name).1 (capSig name).2 args = true →
      oracle (svcKeyFor name) = .error e →
      (execute oracle name args).1 = envF (errWrapFor name e)) ∧
    (bindOk (capSig "send_email").1 (capSig "send_email").2 args = true →
      (execute oracle "send_email" args).1 = envF gmailSendAttrMsg) ∧
    (bindOk (capSig "search_emails").1 (capSig "search_emails").2 args = true →
      (execute oracle "search_emails" args).1 = envF searchEmailsAttrMsg) := by
  refine ⟨?_, ?_, ?_, ?_⟩
  · intro hmem
    simp only [registryNames, List.mem_cons, List.not_mem_nil, or_false,
      not_or] at hmem
    obtain ⟨h1, h2, h3, h4, h5, h6, h7, h8, h9, h10, h11, h12, h13, h14, h15,
      h16, h17, h18, h19, h20, h21⟩ := hmem
    simp [execute, h1, h2, h3, h4, h5, h6, h7, h8, h9, h10, h11, h12, h13,
      h14, h15, h16, h17, h18, h19, h20, h21]
  · intro e hmem hbind horacle
    simp only [fallibleNames, List.mem_cons, List.not_mem_nil, or_false] at hmem
    rcases hmem with rfl | rfl | rfl | rfl | rfl | rfl | rfl | rfl | rfl |
      rfl | rfl | rfl | rfl | rfl | rfl | rfl | rfl <;>
    · simp [capSig] at hbind
      simp [svcKeyFor] at horacle
      simp [execute, withBind, capSig, hbind, svcTry, horacle, errWrapFor,
        svcKeyFor]
  · intro hbind
    simp [capSig] at hbind
    simp [execute, withBind, capSig, hbind]
  · intro hbind
    simp [capSig] at hbind
    simp [execute, withBind, capSig, hbind]

/-- Witness for C8: a raising Google Tasks client degrades `delete_task` to
an error envelope. -/
theorem C8_witness :
    (execute (fun _ => .error "boom") "delete_task" [("task_id", "7")]).1 =
      envF "boom" :=
  (C8_dispatcher (fun _ => .error "boom") "delete_task" [("task_id", "7")]).2.1
    "boom" (by decide) (by decide) rfl

/-- The first pass emits either only `chunk` events (and records no function
call) or some `chunk` events followed by exactly one
`function_start`/`function_result` pair for the recorded call. -/
theorem runFirstPass_shape (oracle : FCOracle) (first : List LLMEvent) :
    (∃ cs : List String,
      (runFirstPass oracle first).1 = cs.map StreamEvent.chunk ∧
      (runFirstPass oracle first).2.1 = none) ∨
    (∃ (cs : List String) (n : String) (r : Envelope),
      (runFirstPass oracle first).1 =
        cs.map StreamEvent.chunk ++
          [StreamEvent.function_start n, StreamEvent.function_result n r] ∧
      (runFirstPass oracle first).2.1 = some (n, r)) := by
  induction first with
  | nil => exact Or.inl ⟨[], rfl, rfl⟩
  | cons ev rest ih =>
    cases ev with
    | chunk c =>
      rcases ih with ⟨cs, h1, h2⟩ | ⟨cs, n, r, h1, h2⟩
      · refine Or.inl ⟨c :: cs, ?_, ?_⟩
        · show StreamEvent.chunk c :: (runFirstPass oracle rest).1 = _
          rw [h1]; rfl
        · show (runFirstPass oracle rest).2.1 = none
          exact h2
      · refine Or.inr ⟨c :: cs, n, r, ?_, ?_⟩
        · show StreamEvent.chunk c :: (runFirstPass oracle rest).1 = _
          rw [h1]; rfl
        · show (runFirstPass oracle rest).2.1 = some (n, r)
          exact h2
    | function_call n args =>
      exact Or.inr ⟨[], n, (execute oracle n args).1, rfl, rfl⟩
    | done =>
      exact ih

/-- Mapped `chunk` events contain no terminal event. -/
theorem countP_terminal_chunks (cs : List String) :
    (cs.map StreamEvent.chunk).countP isTerminal = 0 := by
  induction cs with
  | nil => rfl
  | cons c cs ih => simp [List.countP_cons, isTerminal, ih]

/-- A `function_result` never occurs among mapped `chunk` events. -/
theorem fr_not_mem_chunks (cs : List String) (n : String) (r : Envelope) :
    StreamEvent.function_result n r ∉ cs.map StreamEvent.chunk := by
  simp

/-- The persistence tail always ends in exactly one terminal event. -/
theorem finishTurn_countP (conv_title : Option String) (full : String)
    (persist_exn : Option String) (title_outcome : Except String String)
    (commit_exn : Option String) (extract_exn : Option String) :
    (finishTurn conv_title full persist_exn title_outcome commit_exn
      extract_exn).countP isTerminal = 1 := by
  unfold finishTurn
  rcases persist_exn with _ | pm <;>
    rcases commit_exn with _ | cm <;>
    rcases conv_title with _ | t <;>
    rcases title_outcome with tk | te <;>
    by_cases hf : full = "" <;>
    simp [hf, isTerminal, List.countP_cons, List.countP_append]

/-- The persistence tail never emits a `function_result`. -/
theorem fr_not_mem_finishTurn (conv_title : Option String) (full : String)
    (persist_exn : Option String) (title_outcome : Except String String)
    (commit_exn : Option String) (extract_exn : Option String) (n : String)
    (r : Envelope) :
    StreamEvent.function_result n r ∉
      finishTurn conv_title full persist_exn title_outcome commit_exn
        extract_exn := by
  unfold finishTurn
  rcases persist_exn with _ | pm <;>
    rcases commit_exn with _ | cm <;>
    rcases conv_title with _ | t <;>
    rcases title_outcome with tk | te <;>
    by_cases hf : full = "" <;>
    simp [hf]

/-- In a list of the form `pre ++ a :: b :: post` where `b` occurs nowhere
else, any decomposition at `b` puts `a` in the left part. -/
theorem mem_left_of_append_cons {α : Type} (pre : List α) (a b : α)
    (post : List α) :
    ∀ l1 l2 : List α, b ∉ pre → a ≠ b → b ∉ post →
      pre ++ a :: b :: post = l1 ++ b :: l2 → a ∈ l1 := by
  induction pre with
  | nil =>
    intro l1 l2 _ hab _ heq
    cases l1 with
    | nil =>
      rw [List.nil_append, List.nil_append] at heq
      injection heq with h1 _
      exact absurd h1 hab
    | cons x l1t =>
      rw [List.nil_append, List.cons_append] at heq
      injection heq with h1 _
      exact h1 ▸ List.mem_cons_self a l1t
  | cons p pret ih =>
    intro l1 l2 hbpre hab hbpost heq
    cases l1 with
    | nil =>
      rw [List.cons_append, List.nil_append] at heq
      injection heq with h1 _
      exact absurd (h1 ▸ List.mem_cons_self p pret) hbpre
    | cons x l1t =>
      rw [List.cons_append, List.cons_append] at heq
      injection heq with h1 h2
      have hrec := ih l1t l2 (fun hm => hbpre (List.mem_cons_of_mem p hm))
        hab hbpost h2
      exact List.mem_cons_of_mem x hrec

/-- Mapped `chunk` events contain no terminal event (composition form). -/
theorem countP_terminal_chunks2 (cs : List String) :
    List.countP (isTerminal ∘ StreamEvent.chunk) cs = 0 := by
  induction cs with
  | nil => rfl
  | cons c cst ih => simp [List.countP_cons, isTerminal, Function.comp, ih]

/-- In a stream of the form
`start :: chunks ++ function_start n0 :: function_result n0 r0 :: post`
with no `function_result` in `post`, any decomposition at a
`function_result` puts the matching `function_start` in the left part. -/
theorem C5_pairing_aux (cid : Nat) (cs : List String) (n0 : String)
    (r0 : Envelope) (post : List StreamEvent)
    (hpost : ∀ (n : String) (r : Envelope),
      StreamEvent.function_result n r ∉ post) :
    ∀ (l1 l2 : List StreamEvent) (n : String) (r : Envelope),
      StreamEvent.start cid ::
          (cs.map StreamEvent.chunk ++
            (StreamEvent.function_start n0 ::
              StreamEvent.function_result n0 r0 :: post)) =
        l1 ++ StreamEvent.function_result n r :: l2 →
      StreamEvent.function_start n ∈ l1 := by
  intro l1 l2 n r heq
  have hmem : StreamEvent.function_result n r ∈
      StreamEvent.start cid ::
        (cs.map StreamEvent.chunk ++
          (StreamEvent.function_start n0 ::
            StreamEvent.function_result n0 r0 :: post)) := by
    rw [heq]
    exact List.mem_append_right l1 (List.mem_cons_self _ _)
  have hnr : n = n0 ∧ r = r0 := by
    rcases List.mem_cons.mp hmem with h | h
    · simp at h
    · rcases List.mem_append.mp h with h | h
      · exact absurd h (fr_not_mem_chunks cs n r)
      · rcases List.mem_cons.mp h with h | h
        · simp at h
        · rcases List.mem_cons.mp h with h | h
          · injection h with e1 e2
            exact ⟨e1, e2⟩
          · exact absurd h (hpost n r)
  obtain ⟨rfl, rfl⟩ := hnr
  have heq2 : (StreamEvent.start cid :: cs.map StreamEvent.chunk) ++
      StreamEvent.function_start n ::
        StreamEvent.function_result n r :: post =
      l1 ++ StreamEvent.function_result n r :: l2 := by
    rw [← heq]
    simp
  exact mem_left_of_append_cons
    (StreamEvent.start cid :: cs.map StreamEvent.chunk)
    (StreamEvent.function_start n) (StreamEvent.function_result n r)
    post l1 l2 (by simp) (by simp) (hpost n r) heq2

/-- C5: one streamed turn emits exactly one terminal event (`done` xor
`error`), and every `function_result` event is preceded by a
`function_start` event carrying the same function name. -/
theorem C5_stream_protocol (conversation_id : Nat) (conv_title : Option String)
    (oracle : FCOracle) (first : List LLMEvent) (first_exn : Option String)
    (follow : List String) (follow_exn : Option String)
    (persist_exn : Option String) (title_outcome : Except String String)
    (commit_exn : Option String) (extract_exn : Option String) :
    (chatStream conversation_id conv_title oracle first first_exn follow
        follow_exn persist_exn title_outcome commit_exn extract_exn).countP
      isTerminal = 1 ∧
    (∀ (l1 l2 : List StreamEvent) (n : String) (r : Envelope),
      chatStream conversation_id conv_title oracle first first_exn follow
          follow_exn persist_exn title_outcome commit_exn extract_exn =
        l1 ++ StreamEvent.function_result n r :: l2 →
      StreamEvent.function_start n ∈ l1) := by
  have hdef : chatStream conversation_id conv_title oracle first first_exn
      follow follow_exn persist_exn title_outcome commit_exn extract_exn =
      StreamEvent.start conversation_id ::
        ((runFirstPass oracle first).1 ++
          match (runFirstPass oracle first).2.1 with
          | none =>
            match first_exn with
            | some m => [.error m]
            | none =>
              finishTurn conv_title (runFirstPass oracle first).2.2
                persist_exn title_outcome commit_exn extract_exn
          | some _ =>
            follow.map StreamEvent.chunk ++
              match follow_exn with
              | some m => [.error m]
              | none =>
                finishTurn conv_title
                  ((runFirstPass oracle first).2.2 ++ String.join follow)
                  persist_exn title_outcome commit_exn extract_exn) := rfl
  rcases runFirstPass_shape oracle first with ⟨cs, h1, h2⟩ |
    ⟨cs, n0, r0, h1, h2⟩
  · -- no function call was serviced
    rw [hdef, h1, h2]
    rcases first_exn with _ | m
    · constructor
      · simp [List.countP_cons, List.countP_append, isTerminal,
          countP_terminal_chunks, countP_terminal_chunks2, finishTurn_countP]
      · intro l1 l2 n r heq
        have hmem : StreamEvent.function_result n r ∈
            l1 ++ StreamEvent.function_result n r :: l2 :=
          List.mem_append_right l1 (List.mem_cons_self _ _)
        rw [← heq] at hmem
        simp only [List.mem_cons, List.mem_append] at hmem
        rcases hmem with h | h | h
        · simp at h
        · exact absurd h (fr_not_mem_chunks cs n r)
        · exact absurd h
            (fr_not_mem_finishTurn conv_title _ persist_exn title_outcome
              commit_exn extract_exn n r)
    · constructor
      · simp [List.countP_cons, List.countP_append, isTerminal,
          countP_terminal_chunks, countP_terminal_chunks2]
      · intro l1 l2 n r heq
        have hmem : StreamEvent.function_result n r ∈
            l1 ++ StreamEvent.function_result n r :: l2 :=
          List.mem_append_right l1 (List.mem_cons_self _ _)
        rw [← heq] at hmem
        simp at hmem
  · -- one function call was serviced
    rw [hdef, h1, h2]
    rcases follow_exn with _ | m
    · constructor
      · simp [List.countP_cons, List.countP_append, isTerminal,
          countP_terminal_chunks, countP_terminal_chunks2, finishTurn_countP]
      · intro l1 l2 n r heq
        refine C5_pairing_aux conversation_id cs n0 r0
          (follow.map StreamEvent.chunk ++
            finishTurn conv_title
              ((runFirstPass oracle first).2.2 ++ String.join follow)
              persist_exn title_outcome commit_exn extract_exn)
          ?_ l1 l2 n r ?_
        · intro n2 r2 hm
          rcases List.mem_append.mp hm with h | h
          · exact absurd h (fr_not_mem_chunks follow n2 r2)
          · exact absurd h
              (fr_not_mem_finishTurn conv_title _ persist_exn title_outcome
                commit_exn extract_exn n2 r2)
        · rw [← heq]
          simp
    · constructor
      · simp [List.countP_cons, List.countP_append, isTerminal,
          countP_terminal_chunks, countP_terminal_chunks2]
      · intro l1 l2 n r heq
        refine C5_pairing_aux conversation_id cs n0 r0
          (follow.map StreamEvent.chunk ++ [.error m]) ?_ l1 l2 n r ?_
        · intro n2 r2 hm
          rcases List.mem_append.mp hm with h | h
          · exact absurd h (fr_not_mem_chunks follow n2 r2)
          · simp at h
        · rw [← heq]
          simp

/-- Witness for C5: a concrete turn that services one `get_tasks` call; the
`function_result` decomposition puts the matching `function_start` on the
left. -/
theorem C5_witness :
    StreamEvent.function_start "get_tasks" ∈
      [StreamEvent.start 1, StreamEvent.function_start "get_tasks"] :=
  (C5_stream_protocol 1 (some "t") (fun _ => .ok true)
      [.function_call "get_tasks" []] none ["ok"] none none (.ok "title")
      none none).2
    [StreamEvent.start 1, StreamEvent.function_start "get_tasks"]
    [StreamEvent.chunk "ok", StreamEvent.done "ok"] "get_tasks" envT
    (by decide)

end Speda
